import Mathlib

/-!
Verification of the client-to-server file download system.

The development shallowly embeds the session registry
(`server/connectionManager.js`), the transfer coordinator
(`server/downloadManager.js`, the `DownloadManager` class), the WebSocket
connection handlers of `server/server.js` and `server/server-mtls.js`, the
HTTP trigger-transfer route, and the agent-side reconnect logic of the
client process.

Modelling conventions:
- JavaScript `Map` objects are association lists with unique keys
  (`mapSet` / `mapDelete` / `mapGet` / `mapHas`), preserving insertion
  order and last-write-wins semantics.
- Redis state is carried explicitly: the `connected_clients` hash is an
  association list, and the set of live `client:<id>:status` keys (which
  carry a 300 s TTL in the source) is a list of identities; TTL expiry is
  modelled by the explicit event `expireStatusKey`.
- Byte buffers are `List Nat`; base64 decoding is treated as a bijection,
  so chunk payloads are carried already decoded.
- Wall-clock timestamps (`Date.now()`) are irrelevant to every property
  proved here and are omitted from the records.
- `fs.writeFile` during completion is modelled as succeeding, recording
  the written bytes in the `fileData` field.
- JavaScript numeric expressions are modelled exactly over the rationals
  (`Math.round(x)` for `x ≥ 0` is `⌊x + 1/2⌋`).
-/

/-! Section: association-list maps (JavaScript `Map` semantics). -/

/-- JavaScript Map.set: overwrite the value when the key is present
(keeping its position), otherwise append the new binding at the end. -/
def mapSet {α : Type} : List (String × α) → String → α → List (String × α)
  | [], k, v => [(k, v)]
  | (a, b) :: t, k, v => if a = k then (k, v) :: t else (a, b) :: mapSet t k v

/-- JavaScript Map.delete: drop every binding of the key. -/
def mapDelete {α : Type} (m : List (String × α)) (k : String) : List (String × α) :=
  m.filter (fun p => p.1 ≠ k)

/-- JavaScript Map.get: value of the first binding of the key, if any. -/
def mapGet {α : Type} (m : List (String × α)) (k : String) : Option α :=
  (m.find? (fun p => p.1 = k)).map Prod.snd

/-- JavaScript Map.has: key membership. -/
def mapHas {α : Type} (m : List (String × α)) (k : String) : Bool :=
  m.any (fun p => p.1 = k)

/-! Section: session registry (`server/connectionManager.js`). -/

/-- Joint state of the in-memory `connections` map of the connection
manager and its Redis mirror.  Tunnel handles are identified by `Nat`; the values
stored in the `connected_clients` hash are registration timestamps. -/
structure ConnState where
  /-- The in-memory map from client id to tunnel handle. -/
  connections : List (String × Nat)
  /-- Redis hash `connected_clients : clientId → timestamp`. -/
  connectedClients : List (String × Nat)
  /-- Identities whose Redis key `client:<id>:status` currently exists
  (the key is written with `EX 300` and so can expire). -/
  statusKeys : List String
  deriving Repr, DecidableEq

/-- Model of registerClient: store the handle in the local map, mirror
the identity with a timestamp into the connected_clients hash, and
recreate the TTL status key. -/
def registerClient (cs : ConnState) (clientId : String) (ws : Nat) (now : Nat) : ConnState :=
  { connections := mapSet cs.connections clientId ws
    connectedClients := mapSet cs.connectedClients clientId now
    statusKeys :=
      if cs.statusKeys.contains clientId then cs.statusKeys
      else cs.statusKeys ++ [clientId] }

/-- Model of unregisterClient: remove the local handle, the hash field
and the status key. -/
def unregisterClient (cs : ConnState) (clientId : String) : ConnState :=
  { connections := mapDelete cs.connections clientId
    connectedClients := mapDelete cs.connectedClients clientId
    statusKeys := cs.statusKeys.filter (fun x => x ≠ clientId) }

/-- The 300 s TTL on `client:<id>:status` elapsing: Redis drops the key;
nothing else changes. -/
def expireStatusKey (cs : ConnState) (clientId : String) : ConnState :=
  { cs with statusKeys := cs.statusKeys.filter (fun x => x ≠ clientId) }

/-- Model of isClientConnected: the local map holds the id and the
HEXISTS probe of the connected_clients hash returns 1.  The TTL status
key is not consulted. -/
def isClientConnected (cs : ConnState) (clientId : String) : Bool :=
  mapHas cs.connections clientId && mapHas cs.connectedClients clientId

/-- Model of getClientConnection: plain local lookup. -/
def getClientConnection (cs : ConnState) (clientId : String) : Option Nat :=
  mapGet cs.connections clientId

/-- The empty registry state (fresh manager). -/
def emptyConnState : ConnState := ⟨[], [], []⟩

/-! Section: transfer coordinator (`server/downloadManager.js`). -/

/-- Byte strings. -/
abbrev Bytes := List Nat

/-- A transfer record, mirroring the mutable `download` object.  Fields
that JavaScript leaves `undefined` until some operation assigns them are
`Option`s; `chunks := none` models the `delete download.chunks` performed
at completion; `progress := none` models a NaN/undefined progress value;
`fileData` records the bytes written to disk at completion. -/
structure Download where
  clientId : String
  status : String
  chunks : Option (List (Option Bytes))
  progress : Option Nat
  fileName : Option String
  fileSize : Option Nat
  totalChunks : Option Nat
  receivedChunks : Option Nat
  filePath : Option String
  fileData : Option Bytes
  error : Option String
  deriving Repr, DecidableEq

/-- The record allocated by `initiateDownload`:
an initiated record with an empty chunk array and zero progress. -/
def freshDownload (clientId : String) : Download :=
  { clientId := clientId
    status := "initiated"
    chunks := some []
    progress := some 0
    fileName := none
    fileSize := none
    totalChunks := none
    receivedChunks := none
    filePath := none
    fileData := none
    error := none }

/-- JavaScript array assignment `a[i] = v` on an array of length possibly
less than `i`: pad with holes (`none`) and set index `i`. -/
def setSlot {α : Type} : List (Option α) → Nat → α → List (Option α)
  | [], 0, v => [some v]
  | [], n + 1, v => none :: setSlot [] n v
  | _ :: t, 0, v => some v :: t
  | h :: t, n + 1, v => h :: setSlot t n v

/-- Model of `Buffer.concat` on the chunk array: concatenation in index order when
every slot of the array is filled; `none` when the array has a hole
(`Buffer.concat` throws a `TypeError` on an `undefined` element). -/
def assembleChunks (slots : List (Option Bytes)) : Option Bytes :=
  if slots.all Option.isSome then
    some ((slots.map (fun o => o.getD [])).flatten)
  else
    none

/-- Model of `Math.round((received / total) * 100)` over exact rationals:
`⌊(100·received)/total + 1/2⌋`.  `none` models the NaN (total undefined)
and Infinity (total zero) cases. -/
def jsProgress (received : Nat) (totalChunks : Option Nat) : Option Nat :=
  match totalChunks with
  | none => none
  | some t => if t = 0 then none else some ((2 * (100 * received) + t) / (2 * t))

/-- Per-record effect of `DownloadManager.handleError` (the record is
known to exist): mark failed and record the reason. -/
def handleErrorRec (d : Download) (msg : String) : Download :=
  { d with status := "failed", error := some msg }

/-- Per-record effect of `DownloadManager.completeDownload`: concatenate
the chunk array, write it to `<clientId>_<fileName>`, mark completed and
free the chunk buffers; a throw inside the `try` (hole in the array, or
the array already deleted) routes to `handleError`. -/
def completeDownloadRec (d : Download) : Download :=
  match d.chunks with
  | none => handleErrorRec d "concat of deleted chunks"
  | some slots =>
    match assembleChunks slots with
    | none => handleErrorRec d "concat of sparse chunks"
    | some bytes =>
      { d with status := "completed"
               filePath := some (d.clientId ++ "_" ++ d.fileName.getD "undefined")
               fileData := some bytes
               chunks := none }

/-- Per-record effect of `DownloadManager.handleChunk`: store the decoded
payload at `chunks[chunkIndex]`, increment `receivedChunks`
(`(download.receivedChunks || 0) + 1`), recompute `progress`, and trigger
completion when `isLast`.  When `chunks` was deleted by a prior
completion, the slot assignment throws and the catch in the caller
leaves the record unchanged. -/
def handleChunkRec (d : Download) (chunkIndex : Nat) (data : Bytes) (isLast : Bool) : Download :=
  match d.chunks with
  | none => d
  | some slots =>
    let received := d.receivedChunks.getD 0 + 1
    let d := { d with chunks := some (setSlot slots chunkIndex data)
                      receivedChunks := some received
                      progress := jsProgress received d.totalChunks }
    if isLast then completeDownloadRec d else d

/-- Per-record effect of `DownloadManager.initializeDownload` (the
`file_metadata` handler): fill shape fields, move to `downloading`, zero
the received counter. -/
def initializeDownloadRec (d : Download) (fileName : String) (fileSize totalChunks : Nat) :
    Download :=
  { d with fileName := some fileName
           fileSize := some fileSize
           totalChunks := some totalChunks
           status := "downloading"
           receivedChunks := some 0 }

/-- The downloads map of the coordinator, as a function store (download
ids are UUIDs; no claim concerns id collisions inside the map itself). -/
abbrev Downloads := String → Option Download

/-- Model of `DownloadManager.initiateDownload`: allocate a fresh record
under the (caller-supplied, fresh) UUID. -/
def initiateDownload (ds : Downloads) (downloadId clientId : String) : Downloads :=
  fun x => if x = downloadId then some (freshDownload clientId) else ds x

/-- Model of `DownloadManager.initializeDownload`: silent no-op when the id is
unknown. -/
def initializeDownload (ds : Downloads) (downloadId : String) (fileName : String)
    (fileSize totalChunks : Nat) : Downloads :=
  match ds downloadId with
  | none => ds
  | some d =>
    fun x => if x = downloadId then some (initializeDownloadRec d fileName fileSize totalChunks)
             else ds x

/-- Model of `DownloadManager.handleChunk`: silent no-op when the id is unknown. -/
def handleChunk (ds : Downloads) (downloadId : String) (chunkIndex : Nat) (data : Bytes)
    (isLast : Bool) : Downloads :=
  match ds downloadId with
  | none => ds
  | some d =>
    fun x => if x = downloadId then some (handleChunkRec d chunkIndex data isLast) else ds x

/-- Model of `DownloadManager.handleError`: silent no-op when the id is unknown. -/
def handleError (ds : Downloads) (downloadId : String) (msg : String) : Downloads :=
  match ds downloadId with
  | none => ds
  | some d => fun x => if x = downloadId then some (handleErrorRec d msg) else ds x

/-- A `file_chunk` message: `(chunkIndex, decoded payload, isLast)`. -/
abbrev Msg := Nat × Bytes × Bool

/-- Handling a sequence of `file_chunk` messages for one transfer, in
arrival order. -/
def processChunks (ds : Downloads) (downloadId : String) : List Msg → Downloads
  | [] => ds
  | m :: rest => processChunks (handleChunk ds downloadId m.1 m.2.1 m.2.2) downloadId rest

/-- Record-level counterpart of `processChunks`. -/
def processChunksRec (d : Download) (msgs : List Msg) : Download :=
  msgs.foldl (fun d m => handleChunkRec d m.1 m.2.1 m.2.2) d

/-- The chunk-message sequence the claims quantify over: indices arrive
in the order given by `σ`, each carrying its payload, and only the final
message is flagged `isLast`. -/
def mkMsgs (payload : Nat → Bytes) : List Nat → List Msg
  | [] => []
  | [k] => [(k, payload k, true)]
  | k :: k2 :: rest => (k, payload k, false) :: mkMsgs payload (k2 :: rest)

/-! Section: tunnel protocol handlers (`server/server.js`, `server/server-mtls.js`). -/

/-- Per-connection state of the plain connection handler of server.js:
the tunnel handle `ws` and the closure variable `clientId`, initially
null. -/
structure Conn where
  ws : Nat
  clientIdVar : Option String
  deriving Repr, DecidableEq

/-- Model of the register case of server.js: set the closure variable
and bind the identity in the registry (no identity check). -/
def serverHandleRegister (conn : Conn) (cs : ConnState) (claimed : String) (now : Nat) :
    Conn × ConnState :=
  ({ conn with clientIdVar := some claimed }, registerClient cs claimed conn.ws now)

/-- Model of the close handler of server.js: if this connection ever
completed a registration and the stored closure variable is truthy
(in JavaScript the empty string is falsy, so the guard also skips it),
unregister that identity. -/
def serverHandleClose (conn : Conn) (cs : ConnState) : ConnState :=
  match conn.clientIdVar with
  | some id => if id = "" then cs else unregisterClient cs id
  | none => cs

/-- Per-connection state of the mTLS handler in `server-mtls.js`: the
tunnel handle, the transport-verified certificate CN, the closure
variable `clientId`, and whether `ws.close()` has been invoked. -/
structure MtlsConn where
  ws : Nat
  certCN : String
  clientIdVar : Option String
  closed : Bool
  deriving Repr, DecidableEq

/-- Model of the register case of server-mtls.js: assign the closure
variable, then compare the claimed id against the certificate CN; on
mismatch send an error, close the connection and return without
registering; on match register. -/
def mtlsHandleRegister (conn : MtlsConn) (cs : ConnState) (claimed : String) (now : Nat) :
    MtlsConn × ConnState :=
  let conn := { conn with clientIdVar := some claimed }
  if claimed ≠ conn.certCN then
    ({ conn with closed := true }, cs)
  else
    (conn, registerClient cs claimed conn.ws now)

/-- Model of the close handler of server-mtls.js (same truthiness guard
as the one in server.js: a falsy empty string skips the unregister). -/
def mtlsHandleClose (conn : MtlsConn) (cs : ConnState) : ConnState :=
  match conn.clientIdVar with
  | some id => if id = "" then cs else unregisterClient cs id
  | none => cs

/-! Section: HTTP trigger-transfer route (POST /api/download in `server/server.js`). -/

/-- Responses of the `POST /api/download` handler. -/
inductive ApiResponse where
  /-- 400: `clientId is required` (falsy body field). -/
  | badRequest
  /-- 404: `Client <id> is not connected`. -/
  | notFound
  /-- 200: `{success, downloadId, message}`. -/
  | ok (downloadId : String)
  deriving Repr, DecidableEq

/-- The `POST /api/download` handler: validate the body, check
`isClientConnected`, and only then call `initiateDownload` and push the
`download_request` down the tunnel.  The fresh UUID is a parameter. -/
def apiDownload (cs : ConnState) (ds : Downloads) (clientId : Option String)
    (freshId : String) : ApiResponse × Downloads :=
  match clientId with
  | none => (ApiResponse.badRequest, ds)
  | some cid =>
    if cid = "" then (ApiResponse.badRequest, ds)
    else if isClientConnected cs cid then
      (ApiResponse.ok freshId, initiateDownload ds freshId cid)
    else
      (ApiResponse.notFound, ds)

/-! Section: agent-side reconnect logic (`attemptReconnect` in the client). -/

/-- The fixed reconnect attempt ceiling of the agent (5). -/
def MAX_RECONNECT_ATTEMPTS : Nat := 5

/-- The scheduled backoff delay: 1000 times 2 to the attempt number,
capped at 30000 ms, evaluated
after the counter has been incremented. -/
def reconnectDelay (attempt : Nat) : Nat :=
  min (1000 * 2 ^ attempt) 30000

/-- Outcome of one `attemptReconnect()` call. -/
inductive ReconnectAction where
  /-- `setTimeout(connect, delay)` with the updated counter. -/
  | schedule (newAttempts delay : Nat)
  /-- `process.exit(code)`. -/
  | exit (code : Nat)
  deriving Repr, DecidableEq

/-- Model of `attemptReconnect`: if the counter is below the ceiling, increment
it first and schedule `connect` after `min(1000·2^attempts, 30000)` ms;
otherwise exit the process with status 1. -/
def attemptReconnect (reconnectAttempts : Nat) : ReconnectAction :=
  if reconnectAttempts < MAX_RECONNECT_ATTEMPTS then
    ReconnectAction.schedule (reconnectAttempts + 1) (reconnectDelay (reconnectAttempts + 1))
  else
    ReconnectAction.exit 1

/-! Section: basic lemmas about the association-list maps. -/

/-- The empty downloads store. -/
def emptyDownloads : Downloads := fun _ => none

theorem mapGet_mapSet_self {α : Type} (m : List (String × α)) (k : String) (v : α) :
    mapGet (mapSet m k v) k = some v := by
  induction m with
  | nil => simp [mapSet, mapGet]
  | cons p t ih =>
    obtain ⟨a, b⟩ := p
    by_cases h : a = k
    · simp [mapSet, h, mapGet]
    · simp [mapSet, h, mapGet, List.find?] at ih ⊢
      simpa [h] using ih

theorem mapHas_eq_isSome_mapGet {α : Type} (m : List (String × α)) (k : String) :
    mapHas m k = (mapGet m k).isSome := by
  induction m with
  | nil => simp [mapHas, mapGet]
  | cons p t ih =>
    obtain ⟨a, b⟩ := p
    by_cases h : a = k
    · simp [mapHas, mapGet, List.find?, h]
    · simp [mapHas, mapGet, List.find?, h] at ih ⊢
      simpa using ih

theorem mapGet_mapDelete_self {α : Type} (m : List (String × α)) (k : String) :
    mapGet (mapDelete m k) k = none := by
  rw [mapGet, Option.map_eq_none', List.find?_eq_none]
  intro p hp
  have := List.of_mem_filter hp
  simpa using this

theorem mapHas_mapDelete_self {α : Type} (m : List (String × α)) (k : String) :
    mapHas (mapDelete m k) k = false := by
  rw [mapHas_eq_isSome_mapGet, mapGet_mapDelete_self]
  rfl

theorem mapHas_mapDelete_false {α : Type} (m : List (String × α)) (k x : String)
    (h : mapHas m x = false) : mapHas (mapDelete m k) x = false := by
  rw [Bool.eq_false_iff] at h ⊢
  intro hc
  apply h
  rw [mapHas, List.any_eq_true] at hc ⊢
  obtain ⟨p, hp, hpx⟩ := hc
  exact ⟨p, List.mem_of_mem_filter hp, hpx⟩

theorem contains_filter_ne_self (l : List String) (k : String) :
    (l.filter (fun x => x ≠ k)).contains k = false := by
  rw [← Bool.not_eq_true, List.contains_eq_any_beq, List.any_eq_true]
  rintro ⟨x, hx, hxk⟩
  have h1 := List.of_mem_filter hx
  simp at h1 hxk
  exact h1 hxk.symm

theorem mem_keys_mapSet {α : Type} (m : List (String × α)) (k x : String) (v : α)
    (h : x ∈ (mapSet m k v).map Prod.fst) : x ∈ m.map Prod.fst ∨ x = k := by
  induction m with
  | nil => simp [mapSet] at h; simp [h]
  | cons p t ih =>
    obtain ⟨a, b⟩ := p
    by_cases hak : a = k
    · simp [mapSet, hak] at h
      rcases h with h | h
      · right; exact h
      · left; simp [h]
    · simp [mapSet, hak] at h
      rcases h with h | h
      · left; simp [h]
      · rcases ih (by simpa using h) with h2 | h2
        · left; simp [h2]
        · right; exact h2

theorem nodup_keys_mapSet {α : Type} (m : List (String × α)) (k : String) (v : α)
    (h : (m.map Prod.fst).Nodup) : ((mapSet m k v).map Prod.fst).Nodup := by
  induction m with
  | nil => simp [mapSet]
  | cons p t ih =>
    obtain ⟨a, b⟩ := p
    rw [List.map_cons, List.nodup_cons] at h
    by_cases hak : a = k
    · subst hak
      have he : mapSet ((a, b) :: t) a v = (a, v) :: t := by simp [mapSet]
      rw [he, List.map_cons, List.nodup_cons]
      exact h
    · have he : mapSet ((a, b) :: t) k v = (a, b) :: mapSet t k v := by simp [mapSet, hak]
      rw [he, List.map_cons, List.nodup_cons]
      refine ⟨?_, ih h.2⟩
      intro hx
      rcases mem_keys_mapSet t k a v hx with h2 | h2
      · exact h.1 h2
      · exact hak h2

theorem mem_mapSet_of_nodup {α : Type} (m : List (String × α)) (k : String) (v : α)
    (p : String × α) (hnd : (m.map Prod.fst).Nodup) (h : p ∈ mapSet m k v) :
    p = (k, v) ∨ (p ∈ m ∧ p.1 ≠ k) := by
  induction m with
  | nil => simp [mapSet] at h; simp [h]
  | cons q t ih =>
    obtain ⟨a, b⟩ := q
    rw [List.map_cons, List.nodup_cons] at hnd
    by_cases hak : a = k
    · subst hak
      have he : mapSet ((a, b) :: t) a v = (a, v) :: t := by simp [mapSet]
      rw [he, List.mem_cons] at h
      rcases h with h | h
      · left; exact h
      · right
        refine ⟨List.mem_cons_of_mem _ h, ?_⟩
        intro hp
        have hm : p.1 ∈ t.map Prod.fst := List.mem_map_of_mem Prod.fst h
        rw [hp] at hm
        exact hnd.1 hm
    · have he : mapSet ((a, b) :: t) k v = (a, b) :: mapSet t k v := by simp [mapSet, hak]
      rw [he, List.mem_cons] at h
      rcases h with h | h
      · right
        refine ⟨by simp [h], by simp [h, hak]⟩
      · rcases ih hnd.2 h with h2 | h2
        · left; exact h2
        · right; exact ⟨List.mem_cons_of_mem _ h2.1, h2.2⟩

theorem count_keys_one_of_mapHas {α : Type} (m : List (String × α)) (k : String)
    (hnd : (m.map Prod.fst).Nodup) (h : mapHas m k = true) :
    ((m.map Prod.fst).count k) = 1 := by
  apply List.count_eq_one_of_mem hnd
  rw [mapHas, List.any_eq_true] at h
  obtain ⟨p, hp, hpk⟩ := h
  simp at hpk
  exact hpk ▸ List.mem_map_of_mem Prod.fst hp

/-! Section: lemmas about the chunk slot array. -/

/-- Folding a list of chunk indices into the slot array, each write
carrying the payload of its index. -/
def foldSlots (payload : Nat → Bytes) (s : List (Option Bytes)) (ks : List Nat) :
    List (Option Bytes) :=
  ks.foldl (fun acc k => setSlot acc k (payload k)) s

theorem setSlot_nil_length {α : Type} (i : Nat) (v : α) :
    (setSlot ([] : List (Option α)) i v).length = i + 1 := by
  induction i with
  | zero => rfl
  | succ n ih => simp [setSlot, ih]

theorem setSlot_length {α : Type} (s : List (Option α)) (i : Nat) (v : α) :
    (setSlot s i v).length = max s.length (i + 1) := by
  induction s generalizing i with
  | nil => simp [setSlot_nil_length]
  | cons h t ih =>
    cases i with
    | zero => simp [setSlot]
    | succ n => simp [setSlot, ih]; omega

theorem setSlot_get_self {α : Type} (s : List (Option α)) (i : Nat) (v : α) :
    (setSlot s i v)[i]? = some (some v) := by
  induction s generalizing i with
  | nil =>
    induction i with
    | zero => rfl
    | succ n ih => simpa [setSlot] using ih
  | cons h t ih =>
    cases i with
    | zero => simp [setSlot]
    | succ n => simpa [setSlot] using ih n

theorem setSlot_get_preserve {α : Type} (s : List (Option α)) (i : Nat) (v : α)
    (j : Nat) (w : α) (hne : j ≠ i) (h : s[j]? = some (some w)) :
    (setSlot s i v)[j]? = some (some w) := by
  induction s generalizing i j with
  | nil => simp at h
  | cons hd t ih =>
    cases i with
    | zero =>
      cases j with
      | zero => exact absurd rfl hne
      | succ m => simpa [setSlot] using h
    | succ n =>
      cases j with
      | zero => simpa [setSlot] using h
      | succ m =>
        have hne2 : m ≠ n := by omega
        simp [setSlot] at h ⊢
        exact ih n m hne2 h

theorem foldSlots_preserve (payload : Nat → Bytes) (j : Nat) (w : Bytes) :
    ∀ (ks : List Nat) (s : List (Option Bytes)), j ∉ ks → s[j]? = some (some w) →
      (foldSlots payload s ks)[j]? = some (some w) := by
  intro ks
  induction ks with
  | nil =>
    intro s _ h
    simpa [foldSlots] using h
  | cons k rest ih =>
    intro s hj h
    rw [List.mem_cons] at hj
    push_neg at hj
    exact ih _ hj.2 (setSlot_get_preserve s k (payload k) j w hj.1 h)

theorem foldSlots_get_mem (payload : Nat → Bytes) (j : Nat) :
    ∀ (ks : List Nat) (s : List (Option Bytes)), j ∈ ks →
      (foldSlots payload s ks)[j]? = some (some (payload j)) := by
  intro ks
  induction ks with
  | nil =>
    intro s hj
    simp at hj
  | cons k rest ih =>
    intro s hj
    by_cases hm : j ∈ rest
    · exact ih _ hm
    · have hjk : j = k := by
        rcases List.mem_cons.mp hj with h | h
        · exact h
        · exact absurd h hm
      subst hjk
      exact foldSlots_preserve payload j (payload j) rest _ hm (setSlot_get_self s j (payload j))

theorem foldSlots_length_le (payload : Nat → Bytes) (N : Nat) :
    ∀ (ks : List Nat) (s : List (Option Bytes)), (∀ k ∈ ks, k + 1 ≤ N) → s.length ≤ N →
      (foldSlots payload s ks).length ≤ N := by
  intro ks
  induction ks with
  | nil =>
    intro s _ hs
    simpa [foldSlots] using hs
  | cons k rest ih =>
    intro s hk hs
    apply ih _ (fun k2 hk2 => hk k2 (List.mem_cons_of_mem _ hk2))
    rw [setSlot_length]
    exact max_le hs (hk k (List.mem_cons_self _ _))

/-- Processing a permutation of the indices below `N` into an empty slot
array fills exactly the slots `0..N-1`, each with the payload of its
index. -/
theorem foldSlots_of_perm (payload : Nat → Bytes) (N : Nat) (σ : List Nat)
    (hσ : σ.Perm (List.range N)) :
    foldSlots payload [] σ = (List.range N).map (fun j => some (payload j)) := by
  apply List.ext_getElem?
  intro n
  by_cases hn : n < N
  · rw [foldSlots_get_mem payload n σ [] (hσ.mem_iff.mpr (List.mem_range.mpr hn))]
    rw [List.getElem?_map, List.getElem?_range hn]
    rfl
  · have h1 : (foldSlots payload [] σ).length ≤ N := by
      apply foldSlots_length_le payload N σ [] ?_ (by simp)
      intro k hk
      have := List.mem_range.mp (hσ.mem_iff.mp hk)
      omega
    rw [List.getElem?_eq_none (by omega), List.getElem?_eq_none (by simp; omega)]

/-! Section: lemmas about chunk-message processing. -/

theorem mkMsgs_concat (payload : Nat → Bytes) :
    ∀ (l : List Nat) (k : Nat),
      mkMsgs payload (l ++ [k]) =
        (l.map (fun j => (j, payload j, false))) ++ [(k, payload k, true)] := by
  intro l
  induction l with
  | nil => intro k; rfl
  | cons a l ih =>
    intro k
    cases l with
    | nil => rfl
    | cons b t => simpa [mkMsgs] using ih k

theorem processChunksRec_append (d : Download) (m1 m2 : List Msg) :
    processChunksRec d (m1 ++ m2) = processChunksRec (processChunksRec d m1) m2 := by
  simp [processChunksRec, List.foldl_append]

theorem handleChunkRec_chunks_some (d : Download) (s : List (Option Bytes))
    (hc : d.chunks = some s) (k : Nat) (b : Bytes) :
    handleChunkRec d k b false =
      { d with chunks := some (setSlot s k b)
               receivedChunks := some (d.receivedChunks.getD 0 + 1)
               progress := jsProgress (d.receivedChunks.getD 0 + 1) d.totalChunks } := by
  simp [handleChunkRec, hc]

theorem processChunksRec_nonlast_chunks (payload : Nat → Bytes) :
    ∀ (ks : List Nat) (d : Download) (s : List (Option Bytes)), d.chunks = some s →
      (processChunksRec d (ks.map (fun k => (k, payload k, false)))).chunks =
        some (foldSlots payload s ks) := by
  intro ks
  induction ks with
  | nil =>
    intro d s hc
    simpa [processChunksRec, foldSlots] using hc
  | cons k rest ih =>
    intro d s hc
    rw [List.map_cons]
    have hstep : processChunksRec d ((k, payload k, false) :: rest.map (fun j => (j, payload j, false))) =
        processChunksRec (handleChunkRec d k (payload k) false)
          (rest.map (fun j => (j, payload j, false))) := rfl
    rw [hstep, handleChunkRec_chunks_some d s hc k (payload k)]
    exact ih _ _ rfl

theorem assembleChunks_map_some (l : List Bytes) :
    assembleChunks (l.map (fun b => some b)) = some l.flatten := by
  have h1 : (l.map (fun b => some b)).all Option.isSome = true := by
    rw [List.all_eq_true]
    intro x hx
    rcases List.mem_map.mp hx with ⟨b, _, hb⟩
    simp [← hb]
  have h2 : (l.map (fun b => some b)).map (fun o => o.getD []) = l := by
    rw [List.map_map]
    exact List.map_id l
  rw [assembleChunks, if_pos h1, h2]

theorem completeDownloadRec_of_assemble (d : Download) (S : List (Option Bytes))
    (B : Bytes) (hc : d.chunks = some S) (ha : assembleChunks S = some B) :
    (completeDownloadRec d).status = "completed" ∧
      (completeDownloadRec d).fileData = some B := by
  simp [completeDownloadRec, hc, ha]

theorem completeDownloadRec_update (d : Download) (S : List (Option Bytes)) (B : Bytes)
    (rc pg : Option Nat) (ha : assembleChunks S = some B) :
    (completeDownloadRec
        { d with chunks := some S, receivedChunks := rc, progress := pg }).status =
      "completed" ∧
    (completeDownloadRec
        { d with chunks := some S, receivedChunks := rc, progress := pg }).fileData =
      some B := by
  simp [completeDownloadRec, ha]

theorem processChunks_get (id : String) :
    ∀ (msgs : List Msg) (ds : Downloads) (d : Download), ds id = some d →
      (processChunks ds id msgs) id = some (processChunksRec d msgs) := by
  intro msgs
  induction msgs with
  | nil =>
    intro ds d hd
    simpa [processChunks, processChunksRec] using hd
  | cons m rest ih =>
    intro ds d hd
    have h1 : handleChunk ds id m.1 m.2.1 m.2.2 =
        fun x => if x = id then some (handleChunkRec d m.1 m.2.1 m.2.2) else ds x := by
      simp [handleChunk, hd]
    have h2 : (handleChunk ds id m.1 m.2.1 m.2.2) id =
        some (handleChunkRec d m.1 m.2.1 m.2.2) := by
      rw [h1]
      simp
    calc (processChunks ds id (m :: rest)) id
        = (processChunks (handleChunk ds id m.1 m.2.1 m.2.2) id rest) id := rfl
      _ = some (processChunksRec (handleChunkRec d m.1 m.2.1 m.2.2) rest) := ih _ _ h2
      _ = some (processChunksRec d (m :: rest)) := rfl

theorem handleChunkRec_last (d : Download) (s : List (Option Bytes))
    (hc : d.chunks = some s) (k : Nat) (b : Bytes) :
    handleChunkRec d k b true = completeDownloadRec
      { d with chunks := some (setSlot s k b)
               receivedChunks := some (d.receivedChunks.getD 0 + 1)
               progress := jsProgress (d.receivedChunks.getD 0 + 1) d.totalChunks } := by
  simp [handleChunkRec, hc]

theorem foldSlots_concat (payload : Nat → Bytes) (s : List (Option Bytes))
    (l : List Nat) (k : Nat) :
    foldSlots payload s (l ++ [k]) = setSlot (foldSlots payload s l) k (payload k) := by
  simp [foldSlots, List.foldl_append]

/-! Section: the claims. -/

/-- C1: for every transfer whose metadata has been received (totalChunks
is `N`) and every arrival order `σ` of chunk messages that covers the
indices `0..N-1` exactly once with only the final message flagged
`isLast`, the completed record holds the concatenation of the decoded
chunk payloads in index order. -/
theorem c1_assembled_file_eq_concat (N : Nat) (payload : Nat → Bytes) (σ : List Nat)
    (ds : Downloads) (id cid fn : String) (fs : Nat)
    (hσ : σ.Perm (List.range N)) (hN : 0 < N) :
    ((processChunks (initializeDownload (initiateDownload ds id cid) id fn fs N) id
        (mkMsgs payload σ)) id).map (fun d => (d.status, d.fileData)) =
      some ("completed", some ((List.range N).map payload).flatten) := by
  have h0 : (initiateDownload ds id cid) id = some (freshDownload cid) := by
    simp [initiateDownload]
  have h1 : (initializeDownload (initiateDownload ds id cid) id fn fs N) id =
      some (initializeDownloadRec (freshDownload cid) fn fs N) := by
    unfold initializeDownload
    rw [h0]
    simp
  obtain ⟨l, k, hσeq⟩ : ∃ l k, σ = l ++ [k] := by
    rcases List.eq_nil_or_concat σ with h | h
    · exfalso
      subst h
      have hlen := hσ.length_eq
      simp at hlen
      omega
    · obtain ⟨L, b, hLb⟩ := h
      exact ⟨L, b, by simpa [List.concat_eq_append] using hLb⟩
  subst hσeq
  rw [processChunks_get id _ _ _ h1, mkMsgs_concat, processChunksRec_append]
  have hc0 : (initializeDownloadRec (freshDownload cid) fn fs N).chunks = some [] := rfl
  have hd1 : (processChunksRec (initializeDownloadRec (freshDownload cid) fn fs N)
      (l.map (fun j => (j, payload j, false)))).chunks = some (foldSlots payload [] l) :=
    processChunksRec_nonlast_chunks payload l _ [] hc0
  have hsingle : processChunksRec (processChunksRec
      (initializeDownloadRec (freshDownload cid) fn fs N)
      (l.map (fun j => (j, payload j, false)))) [(k, payload k, true)] =
      handleChunkRec (processChunksRec (initializeDownloadRec (freshDownload cid) fn fs N)
        (l.map (fun j => (j, payload j, false)))) k (payload k) true := rfl
  rw [hsingle, handleChunkRec_last _ _ hd1 k (payload k)]
  have hS : setSlot (foldSlots payload [] l) k (payload k) =
      (List.range N).map (fun j => some (payload j)) := by
    rw [← foldSlots_concat]
    exact foldSlots_of_perm payload N _ hσ
  have hassemble : assembleChunks (setSlot (foldSlots payload [] l) k (payload k)) =
      some (((List.range N).map payload).flatten) := by
    rw [hS]
    have hmm : (List.range N).map (fun j => some (payload j)) =
        ((List.range N).map payload).map (fun b => some b) := by
      rw [List.map_map]
      rfl
    rw [hmm]
    exact assembleChunks_map_some _
  simp only [Option.map_some', Option.some.injEq, Prod.mk.injEq]
  exact completeDownloadRec_update _ _ _ _ _ hassemble

/-- Witness for C1 at a concrete 2-chunk transfer delivered out of order. -/
theorem c1_assembled_file_eq_concat_witness :
    ([1, 0] : List Nat).Perm (List.range 2) ∧ 0 < 2 ∧
    ((processChunks (initializeDownload (initiateDownload emptyDownloads "d1" "site-1")
        "d1" "f.txt" 2 2) "d1" (mkMsgs (fun j => [j]) [1, 0])) "d1").map
      (fun d => (d.status, d.fileData)) =
      some ("completed", some ((List.range 2).map (fun j => [j])).flatten) :=
  ⟨by decide, by decide,
    c1_assembled_file_eq_concat 2 (fun j => [j]) [1, 0] emptyDownloads "d1" "site-1" "f.txt" 2
      (by decide) (by decide)⟩

/-! Section: field-preservation lemmas for completion. -/

theorem completeDownloadRec_progress (d : Download) :
    (completeDownloadRec d).progress = d.progress := by
  rw [completeDownloadRec]
  split
  · simp [handleErrorRec]
  · split
    · simp [handleErrorRec]
    · simp

theorem completeDownloadRec_receivedChunks (d : Download) :
    (completeDownloadRec d).receivedChunks = d.receivedChunks := by
  rw [completeDownloadRec]
  split
  · simp [handleErrorRec]
  · split
    · simp [handleErrorRec]
    · simp

theorem handleChunkRec_progress (d : Download) (s : List (Option Bytes))
    (hc : d.chunks = some s) (i : Nat) (b : Bytes) (l : Bool) :
    (handleChunkRec d i b l).progress =
      jsProgress (d.receivedChunks.getD 0 + 1) d.totalChunks := by
  cases l
  · simp [handleChunkRec, hc]
  · rw [handleChunkRec_last d s hc i b, completeDownloadRec_progress]

theorem handleChunkRec_receivedChunks (d : Download) (s : List (Option Bytes))
    (hc : d.chunks = some s) (i : Nat) (b : Bytes) (l : Bool) :
    (handleChunkRec d i b l).receivedChunks = some (d.receivedChunks.getD 0 + 1) := by
  cases l
  · simp [handleChunkRec, hc]
  · rw [handleChunkRec_last d s hc i b, completeDownloadRec_receivedChunks]

theorem handleChunk_get (ds : Downloads) (id : String) (d : Download)
    (hd : ds id = some d) (i : Nat) (b : Bytes) (l : Bool) :
    (handleChunk ds id i b l) id = some (handleChunkRec d i b l) := by
  unfold handleChunk
  rw [hd]
  simp

/-- A terminal (completed) record, used to witness that the coordinator
does not guard terminal states. -/
def completedRecord : Download :=
  { freshDownload "site-1" with status := "completed" }

/-- A mid-transfer record (3 chunks expected, 1 received). -/
def downloadingRecord : Download :=
  { freshDownload "site-1" with
      status := "downloading", totalChunks := some 3, receivedChunks := some 1 }

/-- C2 counterexample: a record completed by the last chunk is moved from
the terminal status `completed` to `failed` by a later error message, so
an operation does change the status of a record already in a terminal
state. -/
theorem c2_counterexample :
    ((handleChunk (initializeDownload (initiateDownload emptyDownloads "d1" "site-1")
        "d1" "f.txt" 1 1) "d1" 0 [97] true) "d1").map Download.status =
      some "completed" ∧
    ((handleError (handleChunk (initializeDownload (initiateDownload emptyDownloads
        "d1" "site-1") "d1" "f.txt" 1 1) "d1" 0 [97] true) "d1" "late error") "d1").map
      Download.status = some "failed" :=
  ⟨rfl, rfl⟩

/-- C2 (amended): terminal states are not guarded: onMetadata sets the
status of any known record to `downloading` and fail sets the status of
any known record to `failed`, even when the record is already completed
or failed. -/
theorem c2_terminal_states_not_guarded (ds : Downloads) (id fn msg : String)
    (fs tc : Nat) (d : Download) (hd : ds id = some d) :
    ((initializeDownload ds id fn fs tc) id).map Download.status = some "downloading" ∧
    ((handleError ds id msg) id).map Download.status = some "failed" := by
  constructor
  · unfold initializeDownload
    rw [hd]
    simp [initializeDownloadRec]
  · unfold handleError
    rw [hd]
    simp [handleErrorRec]

/-- Witness for the amended C2 at a record that is already completed. -/
theorem c2_terminal_states_not_guarded_witness :
    (fun _ => some completedRecord : Downloads) "d1" = some completedRecord ∧
    (((initializeDownload (fun _ => some completedRecord) "d1" "f.txt" 1 1) "d1").map
        Download.status = some "downloading" ∧
      ((handleError (fun _ => some completedRecord) "d1" "boom") "d1").map
        Download.status = some "failed") :=
  ⟨rfl, c2_terminal_states_not_guarded (fun _ => some completedRecord) "d1" "f.txt" "boom"
    1 1 completedRecord rfl⟩

/-- C3 counterexample: after the TTL status key of a registered identity
expires, isClientConnected still returns true, so it does not require the
short-lived liveness marker to exist. -/
theorem c3_counterexample :
    isClientConnected (expireStatusKey (registerClient emptyConnState "site-1" 1 0)
      "site-1") "site-1" = true ∧
    ((expireStatusKey (registerClient emptyConnState "site-1" 1 0)
      "site-1").statusKeys.contains "site-1") = false := by
  decide

/-- C3 (amended): isClientConnected is true exactly when the local map
holds a handle and the connected_clients hash holds a field for the
identity; the TTL status key is irrelevant, expiring it never changes the
result. -/
theorem c3_isConnected_characterization (cs : ConnState) (id : String) :
    (isClientConnected cs id = true ↔
      (∃ h, mapGet cs.connections id = some h) ∧
        (∃ t, mapGet cs.connectedClients id = some t)) ∧
    isClientConnected (expireStatusKey cs id) id = isClientConnected cs id := by
  constructor
  · rw [isClientConnected, Bool.and_eq_true, mapHas_eq_isSome_mapGet,
      mapHas_eq_isSome_mapGet]
    simp [Option.isSome_iff_exists]
  · rfl

/-- C4 counterexample: on a 3-chunk transfer, the second chunk sets
progress to 67 (round half up of 200/3), while floor(2/3*100) is 66, so
progress is not the floor. -/
theorem c4_counterexample :
    ((processChunks (initializeDownload (initiateDownload emptyDownloads "d1" "site-1")
        "d1" "f.txt" 3 3) "d1" [(0, [1], false), (1, [2], false)]) "d1").map
      Download.progress = some (some 67) ∧
    100 * 2 / 3 = 66 ∧ (67 : Nat) ≠ 66 :=
  ⟨rfl, rfl, by decide⟩

/-- C4 (amended): for every chunk message handled on a known transfer
whose chunk buffer is intact and whose totalChunks is a positive `t`,
onChunk sets progress to round-half-up of `received/t*100` (with
`received` the incremented count), not to its floor. -/
theorem c4_progress_is_round_half_up (ds : Downloads) (id : String) (d : Download)
    (s : List (Option Bytes)) (t i : Nat) (b : Bytes) (l : Bool)
    (hd : ds id = some d) (hc : d.chunks = some s) (ht : d.totalChunks = some t)
    (h0 : 0 < t) :
    ((handleChunk ds id i b l) id).map Download.progress =
      some (some ((2 * (100 * (d.receivedChunks.getD 0 + 1)) + t) / (2 * t))) := by
  rw [handleChunk_get ds id d hd i b l, Option.map_some',
    handleChunkRec_progress d s hc i b l, ht]
  have ht0 : t ≠ 0 := by omega
  simp [jsProgress, ht0]

/-- Witness for the amended C4 at a concrete mid-transfer record. -/
theorem c4_progress_is_round_half_up_witness :
    (fun _ => some downloadingRecord : Downloads) "d1" = some downloadingRecord ∧
    downloadingRecord.chunks = some [] ∧ downloadingRecord.totalChunks = some 3 ∧
    0 < 3 ∧
    ((handleChunk (fun _ => some downloadingRecord) "d1" 0 [9] false) "d1").map
        Download.progress =
      some (some ((2 * (100 * (downloadingRecord.receivedChunks.getD 0 + 1)) + 3) /
        (2 * 3))) :=
  ⟨rfl, rfl, rfl, by decide,
    c4_progress_is_round_half_up (fun _ => some downloadingRecord) "d1" downloadingRecord
      [] 3 0 [9] false rfl rfl rfl (by decide)⟩

/-- C5 counterexample: the first reconnect delay is 2000 ms, not the
1000 ms the claim lists, because the counter is incremented before the
power of two is taken. -/
theorem c5_counterexample :
    attemptReconnect 0 = ReconnectAction.schedule 1 2000 ∧ (2000 : Nat) ≠ 1000 := by
  decide

/-- C5 (amended): the successive reconnect delays are 2 s, 4 s, 8 s,
16 s and 30 s (1000 times 2 to the already-incremented attempt counter,
capped at 30000 ms) across 5 attempts, and the call after the 5th failed
attempt exits the process with the non-zero status 1. -/
theorem c5_backoff_schedule :
    attemptReconnect 0 = ReconnectAction.schedule 1 2000 ∧
    attemptReconnect 1 = ReconnectAction.schedule 2 4000 ∧
    attemptReconnect 2 = ReconnectAction.schedule 3 8000 ∧
    attemptReconnect 3 = ReconnectAction.schedule 4 16000 ∧
    attemptReconnect 4 = ReconnectAction.schedule 5 30000 ∧
    attemptReconnect 5 = ReconnectAction.exit 1 ∧ (1 : Nat) ≠ 0 := by
  decide

/-- C6 counterexample: on a 1-chunk transfer the same index handled twice
drives receivedChunks to 2, exceeding totalChunks = 1. -/
theorem c6_counterexample :
    ((processChunks (initializeDownload (initiateDownload emptyDownloads "d1" "site-1")
        "d1" "f.txt" 1 1) "d1" [(0, [7], false), (0, [7], false)]) "d1").map
      (fun d => (d.receivedChunks, d.totalChunks)) = some (some 2, some 1) ∧
    (2 : Nat) > 1 :=
  ⟨rfl, by decide⟩

/-- C6 (amended): every chunk message handled on a known record whose
chunk buffer is intact increments receivedChunks by exactly one, whether
or not the index was already received, so receivedChunks can exceed
totalChunks. -/
theorem c6_received_increments_on_every_chunk (ds : Downloads) (id : String)
    (d : Download) (s : List (Option Bytes)) (i : Nat) (b : Bytes) (l : Bool)
    (hd : ds id = some d) (hc : d.chunks = some s) :
    ((handleChunk ds id i b l) id).map Download.receivedChunks =
      some (some (d.receivedChunks.getD 0 + 1)) := by
  rw [handleChunk_get ds id d hd i b l, Option.map_some',
    handleChunkRec_receivedChunks d s hc i b l]

/-- Witness for the amended C6 at a concrete mid-transfer record. -/
theorem c6_received_increments_witness :
    (fun _ => some downloadingRecord : Downloads) "d1" = some downloadingRecord ∧
    downloadingRecord.chunks = some [] ∧
    ((handleChunk (fun _ => some downloadingRecord) "d1" 0 [9] false) "d1").map
        Download.receivedChunks =
      some (some (downloadingRecord.receivedChunks.getD 0 + 1)) :=
  ⟨rfl, rfl,
    c6_received_increments_on_every_chunk (fun _ => some downloadingRecord) "d1"
      downloadingRecord [] 0 [9] false rfl rfl⟩

/-- C7: under mutual authentication, a registration claiming an identity
different from the certificate CN closes the connection and — across the
registration handler and the subsequent close handler — creates no
registry entry (local map or remote hash) for either the claimed or the
certificate identity: starting from a registry holding neither identity,
the registry afterwards still holds neither. -/
theorem c7_identity_mismatch_no_entry (cs : ConnState) (certId claimed : String)
    (ws t : Nat) (hne : claimed ≠ certId)
    (hc1 : mapHas cs.connections certId = false)
    (hc2 : mapHas cs.connections claimed = false)
    (hh1 : mapHas cs.connectedClients certId = false)
    (hh2 : mapHas cs.connectedClients claimed = false) :
    (mtlsHandleRegister ⟨ws, certId, none, false⟩ cs claimed t).1.closed = true ∧
    mapHas (mtlsHandleClose (mtlsHandleRegister ⟨ws, certId, none, false⟩ cs claimed t).1
      (mtlsHandleRegister ⟨ws, certId, none, false⟩ cs claimed t).2).connections certId
        = false ∧
    mapHas (mtlsHandleClose (mtlsHandleRegister ⟨ws, certId, none, false⟩ cs claimed t).1
      (mtlsHandleRegister ⟨ws, certId, none, false⟩ cs claimed t).2).connections claimed
        = false ∧
    mapHas (mtlsHandleClose (mtlsHandleRegister ⟨ws, certId, none, false⟩ cs claimed t).1
      (mtlsHandleRegister ⟨ws, certId, none, false⟩ cs claimed t).2).connectedClients
        certId = false ∧
    mapHas (mtlsHandleClose (mtlsHandleRegister ⟨ws, certId, none, false⟩ cs claimed t).1
      (mtlsHandleRegister ⟨ws, certId, none, false⟩ cs claimed t).2).connectedClients
        claimed = false := by
  have hreg : mtlsHandleRegister ⟨ws, certId, none, false⟩ cs claimed t =
      (⟨ws, certId, some claimed, true⟩, cs) := by
    simp [mtlsHandleRegister, hne]
  rw [hreg]
  by_cases hemp : claimed = ""
  · have hclose : mtlsHandleClose (⟨ws, certId, some claimed, true⟩ : MtlsConn) cs =
        cs := by
      simp [mtlsHandleClose, hemp]
    rw [hclose]
    exact ⟨rfl, hc1, hc2, hh1, hh2⟩
  · have hclose : mtlsHandleClose (⟨ws, certId, some claimed, true⟩ : MtlsConn) cs =
        unregisterClient cs claimed := by
      simp [mtlsHandleClose, hemp]
    rw [hclose]
    refine ⟨rfl, ?_, ?_, ?_, ?_⟩
    · exact mapHas_mapDelete_false cs.connections claimed certId hc1
    · exact mapHas_mapDelete_self cs.connections claimed
    · exact mapHas_mapDelete_false cs.connectedClients claimed certId hh1
    · exact mapHas_mapDelete_self cs.connectedClients claimed

/-- Witness for C7 at the scenario of the specification: certificate
identity site-2, claimed identity site-3, empty registry. -/
theorem c7_identity_mismatch_no_entry_witness :
    ("site-3" : String) ≠ "site-2" ∧
    mapHas emptyConnState.connections "site-2" = false ∧
    mapHas emptyConnState.connections "site-3" = false ∧
    mapHas emptyConnState.connectedClients "site-2" = false ∧
    mapHas emptyConnState.connectedClients "site-3" = false ∧
    ((mtlsHandleRegister ⟨7, "site-2", none, false⟩ emptyConnState "site-3" 0).1.closed
        = true ∧
      mapHas (mtlsHandleClose
        (mtlsHandleRegister ⟨7, "site-2", none, false⟩ emptyConnState "site-3" 0).1
        (mtlsHandleRegister ⟨7, "site-2", none, false⟩ emptyConnState "site-3"
          0).2).connections "site-2" = false ∧
      mapHas (mtlsHandleClose
        (mtlsHandleRegister ⟨7, "site-2", none, false⟩ emptyConnState "site-3" 0).1
        (mtlsHandleRegister ⟨7, "site-2", none, false⟩ emptyConnState "site-3"
          0).2).connections "site-3" = false ∧
      mapHas (mtlsHandleClose
        (mtlsHandleRegister ⟨7, "site-2", none, false⟩ emptyConnState "site-3" 0).1
        (mtlsHandleRegister ⟨7, "site-2", none, false⟩ emptyConnState "site-3"
          0).2).connectedClients "site-2" = false ∧
      mapHas (mtlsHandleClose
        (mtlsHandleRegister ⟨7, "site-2", none, false⟩ emptyConnState "site-3" 0).1
        (mtlsHandleRegister ⟨7, "site-2", none, false⟩ emptyConnState "site-3"
          0).2).connectedClients "site-3" = false) :=
  ⟨by decide, rfl, rfl, rfl, rfl,
    c7_identity_mismatch_no_entry emptyConnState "site-2" "site-3" 7 0 (by decide)
      rfl rfl rfl rfl⟩

/-- C8: triggering a transfer for an identity that is not connected (and
whose id is a real identity, i.e. not the empty string that the route
rejects as a missing field) returns the not-found response and leaves the
set of transfer records unchanged. -/
theorem c8_disconnected_returns_not_found (cs : ConnState) (ds : Downloads)
    (cid freshId : String) (hconn : isClientConnected cs cid = false)
    (hne : cid ≠ "") :
    apiDownload cs ds (some cid) freshId = (ApiResponse.notFound, ds) := by
  simp [apiDownload, hne, hconn]

/-- Witness for C8 at an empty registry. -/
theorem c8_disconnected_returns_not_found_witness :
    isClientConnected emptyConnState "site-9" = false ∧ ("site-9" : String) ≠ "" ∧
    apiDownload emptyConnState emptyDownloads (some "site-9") "uuid-1" =
      (ApiResponse.notFound, emptyDownloads) :=
  ⟨rfl, by decide,
    c8_disconnected_returns_not_found emptyConnState emptyDownloads "site-9" "uuid-1"
      rfl (by decide)⟩

/-- C9: registering the same identity twice (from a registry whose keys
are unique and which does not already hold the first handle as a value)
keeps exactly one session for the identity, holding the newest handle;
the superseded handle is no longer reachable from the registry. -/
theorem c9_reregistration_last_write_wins (cs : ConnState) (i : String)
    (h1 h2 t1 t2 : Nat) (hnd : (cs.connections.map Prod.fst).Nodup)
    (hv : h1 ∉ cs.connections.map Prod.snd) (hne : h1 ≠ h2) :
    mapGet (registerClient (registerClient cs i h1 t1) i h2 t2).connections i = some h2 ∧
    ((registerClient (registerClient cs i h1 t1) i h2 t2).connections.map
      Prod.fst).count i = 1 ∧
    h1 ∉ (registerClient (registerClient cs i h1 t1) i h2 t2).connections.map
      Prod.snd := by
  have hcon : (registerClient (registerClient cs i h1 t1) i h2 t2).connections =
      mapSet (mapSet cs.connections i h1) i h2 := rfl
  rw [hcon]
  refine ⟨mapGet_mapSet_self _ _ _, ?_, ?_⟩
  · apply count_keys_one_of_mapHas
    · exact nodup_keys_mapSet _ _ _ (nodup_keys_mapSet _ _ _ hnd)
    · rw [mapHas_eq_isSome_mapGet, mapGet_mapSet_self]
      rfl
  · intro hmem
    rcases List.mem_map.mp hmem with ⟨p, hp, hpv⟩
    rcases mem_mapSet_of_nodup _ _ _ p (nodup_keys_mapSet _ _ _ hnd) hp with
      h | ⟨hpm, hpk⟩
    · rw [h] at hpv
      simp at hpv
      exact hne hpv.symm
    · rcases mem_mapSet_of_nodup _ _ _ p hnd hpm with h | ⟨hpm2, _⟩
      · rw [h] at hpk
        simp at hpk
      · have hval : p.2 ∈ cs.connections.map Prod.snd :=
          List.mem_map_of_mem Prod.snd hpm2
        rw [hpv] at hval
        exact hv hval

/-- Witness for C9 at an empty registry, handles 1 then 2. -/
theorem c9_reregistration_witness :
    ((emptyConnState.connections.map Prod.fst).Nodup) ∧
    (1 ∉ emptyConnState.connections.map Prod.snd) ∧ (1 : Nat) ≠ 2 ∧
    (mapGet (registerClient (registerClient emptyConnState "site-1" 1 0) "site-1" 2
        1).connections "site-1" = some 2 ∧
      ((registerClient (registerClient emptyConnState "site-1" 1 0) "site-1" 2
        1).connections.map Prod.fst).count "site-1" = 1 ∧
      1 ∉ (registerClient (registerClient emptyConnState "site-1" 1 0) "site-1" 2
        1).connections.map Prod.snd) :=
  ⟨by decide, by decide, by decide,
    c9_reregistration_last_write_wins emptyConnState "site-1" 1 2 0 1 (by decide)
      (by decide) (by decide)⟩

/-- C10: when the connection that first registered a (real, non-empty)
identity closes after a second connection has re-registered the same
identity, the close handler of the first connection still unregisters the
identity, removing the newer handle and the remote entries: afterwards
isClientConnected is false and no handle for the identity is reachable.
The empty string is excluded because the truthiness guard of the close
handler treats it as no completed registration and skips the
unregister. -/
theorem c10_stale_close_unregisters_newer (cs : ConnState) (i : String)
    (wsA wsB tA tB : Nat) (hi : i ≠ "") :
    isClientConnected
      (serverHandleClose (serverHandleRegister ⟨wsA, none⟩ cs i tA).1
        (serverHandleRegister ⟨wsB, none⟩ (serverHandleRegister ⟨wsA, none⟩ cs i tA).2
          i tB).2) i = false ∧
    mapGet (serverHandleClose (serverHandleRegister ⟨wsA, none⟩ cs i tA).1
        (serverHandleRegister ⟨wsB, none⟩ (serverHandleRegister ⟨wsA, none⟩ cs i tA).2
          i tB).2).connections i = none ∧
    mapGet (serverHandleClose (serverHandleRegister ⟨wsA, none⟩ cs i tA).1
        (serverHandleRegister ⟨wsB, none⟩ (serverHandleRegister ⟨wsA, none⟩ cs i tA).2
          i tB).2).connectedClients i = none ∧
    (serverHandleClose (serverHandleRegister ⟨wsA, none⟩ cs i tA).1
        (serverHandleRegister ⟨wsB, none⟩ (serverHandleRegister ⟨wsA, none⟩ cs i tA).2
          i tB).2).statusKeys.contains i = false := by
  have hclose : serverHandleClose (serverHandleRegister ⟨wsA, none⟩ cs i tA).1
      (serverHandleRegister ⟨wsB, none⟩ (serverHandleRegister ⟨wsA, none⟩ cs i tA).2
        i tB).2 =
      unregisterClient (serverHandleRegister ⟨wsB, none⟩
        (serverHandleRegister ⟨wsA, none⟩ cs i tA).2 i tB).2 i := by
    simp [serverHandleClose, serverHandleRegister, hi]
  rw [hclose]
  refine ⟨?_, mapGet_mapDelete_self _ _, mapGet_mapDelete_self _ _,
    contains_filter_ne_self _ _⟩
  rw [isClientConnected]
  have h1 : mapHas (unregisterClient (serverHandleRegister ⟨wsB, none⟩
      (serverHandleRegister ⟨wsA, none⟩ cs i tA).2 i tB).2 i).connections i = false :=
    mapHas_mapDelete_self _ _
  rw [h1]
  rfl

/-- Witness for C10 at a concrete identity, handles 1 then 2. -/
theorem c10_stale_close_witness :
    ("site-1" : String) ≠ "" ∧
    (isClientConnected
        (serverHandleClose (serverHandleRegister ⟨1, none⟩ emptyConnState "site-1" 0).1
          (serverHandleRegister ⟨2, none⟩
            (serverHandleRegister ⟨1, none⟩ emptyConnState "site-1" 0).2
            "site-1" 1).2) "site-1" = false ∧
      mapGet (serverHandleClose (serverHandleRegister ⟨1, none⟩ emptyConnState "site-1"
            0).1
          (serverHandleRegister ⟨2, none⟩
            (serverHandleRegister ⟨1, none⟩ emptyConnState "site-1" 0).2
            "site-1" 1).2).connections "site-1" = none ∧
      mapGet (serverHandleClose (serverHandleRegister ⟨1, none⟩ emptyConnState "site-1"
            0).1
          (serverHandleRegister ⟨2, none⟩
            (serverHandleRegister ⟨1, none⟩ emptyConnState "site-1" 0).2
            "site-1" 1).2).connectedClients "site-1" = none ∧
      (serverHandleClose (serverHandleRegister ⟨1, none⟩ emptyConnState "site-1" 0).1
          (serverHandleRegister ⟨2, none⟩
            (serverHandleRegister ⟨1, none⟩ emptyConnState "site-1" 0).2
            "site-1" 1).2).statusKeys.contains "site-1" = false) :=
  ⟨by decide,
    c10_stale_close_unregisters_newer emptyConnState "site-1" 1 2 0 1 (by decide)⟩
